import Mathlib

/-!
# Verification of `src/utils/build.utils.ts` (package-build-stats)

Shallow embedding of the build-orchestration core: entry-point synthesis
(`createEntryPoint`), missing-module classification (`_parseMissingModules`),
the orchestrator (`buildPackage`) and the retry controller
(`buildPackageIgnoringMissingDeps`).

Modelling conventions:
- JavaScript strings are Lean `String`s; regex matching is modelled over
  `List Char` with JS leftmost-match / greedy / lazy quantifier semantics
  (`.` is modelled as matching any character).
- External collaborators (webpack compile, the in-memory output filesystem,
  gzip, parse-time, dependency-size-tree, `is-valid-npm-name`, `fs.writeFileSync`)
  are parameters gathered in environment records.
- JS arrays visible to the mutation claims are modelled as references into an
  explicit store (`ArrStore`), so that in-place mutation would be observable;
  `Array.prototype.concat` allocates a fresh array.
- Exceptions are modelled with `Except BuildFailure`; a JS runtime `TypeError`
  (property access on `undefined`) is `BuildFailure.jsTypeError`.
-/

set_option autoImplicit false

namespace PBS

/-- Modelled from the spec: the error taxonomy of `src/errors/CustomError.ts`
(that file is not under `src/`; §7 of the spec lists the five kinds and says
`MissingDependencyError` carries the distinct missing module names as
structured extra data).  `jsTypeError` is not one of the repository's error
kinds: it models an unclassified JavaScript runtime `TypeError`. -/
inductive BuildFailure where
  | buildError (errors : List String)
  | cliBuildError (errors : List String)
  | entryPointError (detail : List String)
  | missingDependencyError (errors : List String) (missingModules : List String)
  | unexpectedBuildError (msg : String)
  | jsTypeError (msg : String)
deriving DecidableEq, Repr

instance {ε α : Type} [DecidableEq ε] [DecidableEq α] : DecidableEq (Except ε α)
  | .error a, .error b =>
    if h : a = b then .isTrue (by rw [h]) else .isFalse (by intro hc; cases hc; exact h rfl)
  | .error _, .ok _ => .isFalse (by intro hc; cases hc)
  | .ok _, .error _ => .isFalse (by intro hc; cases hc)
  | .ok a, .ok b =>
    if h : a = b then .isTrue (by rw [h]) else .isFalse (by intro hc; cases hc; exact h rfl)

/-- One webpack compilation error object.  `name` models `error.name`,
`errorStr` models `error.error.toString()` (the text the missing-module regex
is run on), `str` models `error.toString()` (used for error payloads). -/
structure WebpackError where
  name : String
  errorStr : String
  str : String
deriving DecidableEq, Repr

/-! ## String helpers (JS semantics) -/

/-- `pre.isPrefixOf`-based model of JS `String.prototype.startsWith`. -/
def jsStartsWith (s pre : String) : Bool :=
  pre.toList.isPrefixOf s.toList

/-- Model of JS `String.prototype.endsWith`. -/
def jsEndsWith (s suf : String) : Bool :=
  suf.toList.isSuffixOf s.toList

/-- All indices `i` of `cs` (including `cs.length`) at which `pat` occurs. -/
def prefixIndices (pat cs : List Char) : List Nat :=
  (List.range (cs.length + 1)).filter (fun i => pat.isPrefixOf (cs.drop i))

/-- Model of JS `String.prototype.includes` over char lists. -/
def containsSubList (cs pat : List Char) : Bool :=
  (prefixIndices pat cs).any (fun _ => true)

/-- Model of JS `String.prototype.includes`. -/
def containsSub (s pat : String) : Bool :=
  containsSubList s.toList pat.toList

/-- Helper for `dedupFirst`: keep the elements not seen yet, in order. -/
def dedupFirstAux (seen : List String) : List String → List String
  | [] => []
  | x :: xs =>
    if x ∈ seen then dedupFirstAux seen xs
    else x :: dedupFirstAux (x :: seen) xs

/-- JS `Array.from(new Set(xs))`: deduplication keeping first occurrences in
insertion order. -/
def dedupFirst (l : List String) : List String :=
  dedupFirstAux [] l

/-- `jsMatchFirstGreedy pre suf cs` models matching the JS regex
`/pre(.+)suf/` against `cs`: the match starts at the leftmost index where
`pre` occurs and is followed (with at least one character in between) by an
occurrence of `suf`; the greedy `(.+)` capture extends to the last occurrence
of `suf` in the string.  Used for `/Can't resolve '(.+)' in/` (line 141). -/
def jsMatchFirstGreedy (pre suf cs : List Char) : Option (List Char) :=
  match (prefixIndices pre cs).find? (fun i =>
      (prefixIndices suf cs).any (fun j => i + pre.length + 1 ≤ j)) with
  | none => none
  | some i =>
    match ((prefixIndices suf cs).filter (fun j => i + pre.length + 1 ≤ j)).getLast? with
    | none => none
    | some j => some ((cs.drop (i + pre.length)).take (j - (i + pre.length)))

/-- The capture of `/Can't resolve '(.+)' in/` on `err.error.toString()`
(line 141-144). -/
def matchCantResolve (s : String) : Option String :=
  match jsMatchFirstGreedy "Can't resolve '".toList "' in".toList s.toList with
  | none => none
  | some capture => some ⟨capture⟩

/-- Matching `/@[^\/]+\/[^\/]+/` at the head of `cs`: `@`, a maximal nonempty
slash-free run, `/`, a maximal nonempty slash-free run. -/
def scopedAt (cs : List Char) : Option (List Char) :=
  match cs with
  | [] => none
  | c :: rest =>
    if c = '@' then
      let scope := rest.takeWhile (fun c => !(c == '/'))
      if scope.isEmpty then none
      else
        match rest.drop scope.length with
        | [] => none
        | d :: rest2 =>
          if d = '/' then
            let nm := rest2.takeWhile (fun c => !(c == '/'))
            if nm.isEmpty then none else some ('@' :: (scope ++ '/' :: nm))
          else none
    else none

/-- Leftmost match of `/@[^\/]+\/[^\/]+/` (line 155):
`@babel/runtime/object/create` gives `@babel/runtime`. -/
def scopedFirst : List Char → Option (List Char)
  | [] => none
  | c :: rest =>
    match scopedAt (c :: rest) with
    | some m => some m
    | none => scopedFirst rest

/-- Leftmost match of `/[^\/]+/` (line 157): the first maximal nonempty
slash-free run, e.g. `babel-runtime/object/create` gives `babel-runtime`. -/
def firstSegment (cs : List Char) : Option (List Char) :=
  match cs.dropWhile (fun c => c == '/') with
  | [] => none
  | c :: rest => some ((c :: rest).takeWhile (fun c => !(c == '/')))

/-- Package name extraction from a missing file path (lines 153-166):
scoped regex when the path starts with `@`, first path segment otherwise. -/
def packageNameFromPath (missingFilePath : String) : Option String :=
  if jsStartsWith missingFilePath "@" then
    (scopedFirst missingFilePath.toList).map (fun l => (⟨l⟩ : String))
  else
    (firstSegment missingFilePath.toList).map (fun l => (⟨l⟩ : String))

/-- The body of the `missingModuleErrors.map` callback (lines 143-167): either
a package name or one of the two `UnexpectedBuildError` throws. -/
def extractOne (err : WebpackError) : Except BuildFailure String :=
  match matchCantResolve err.errorStr with
  | none =>
    .error (.unexpectedBuildError
      "Expected to find a file path in the module not found error, but found none. Regex for this might be out of date.")
  | some missingFilePath =>
    match packageNameFromPath missingFilePath with
    | none =>
      .error (.unexpectedBuildError
        "Failed to resolve the missing package name. Regex for this might be out of date.")
    | some packageName => .ok packageName

/-- JS `Array.prototype.map` with a callback that can throw: the first
exception propagates. -/
def mapMExcept {α β : Type} (f : α → Except BuildFailure β) :
    List α → Except BuildFailure (List β)
  | [] => .ok []
  | a :: as =>
    match f a with
    | .error e => .error e
    | .ok b =>
      match mapMExcept f as with
      | .error e => .error e
      | .ok bs => .ok (b :: bs)

/-- Lines 169-172: `uniqueMissingModules[0]` based sub-path filter.  Note the
source filters only against the FIRST deduplicated name, not against every
name.  (`headD ""` models `uniqueMissingModules[0]`; the list is nonempty at
every call site.) -/
def dropSubOfHead (uniqueMissingModules : List String) : List String :=
  uniqueMissingModules.filter
    (fun mod => !(jsStartsWith mod (uniqueMissingModules.headD "" ++ "/")))

/-- `BuildUtils._parseMissingModules` (lines 131-175). -/
def parseMissingModules (errors : List WebpackError) :
    Except BuildFailure (List String) :=
  let missingModuleErrors := errors.filter (fun e => e.name == "ModuleNotFoundError")
  if missingModuleErrors.isEmpty then .ok []
  else
    match mapMExcept extractOne missingModuleErrors with
    | .error e => .error e
    | .ok missingModules => .ok (dropSubOfHead (dedupFirst missingModules))

/-! ## Data model of the build requests and compiler results -/

/-- Minifier choice (`'terser' | 'esbuild'`). -/
inductive Minifier where
  | terser
  | esbuild
deriving DecidableEq, Repr

/-- A JS-array heap: index-addressed store of string arrays, so that in-place
mutation of an array would be observable.  `Array.prototype.concat` allocates
a fresh array at the end of the store. -/
abbrev ArrStore := List (List String)

/-- Read the array a reference points at. -/
def readArr (store : ArrStore) (r : Nat) : List String :=
  store.getD r []

/-- JS `arr.concat(extra)`: returns a reference to a freshly allocated array,
leaving the original array untouched (lines 360-363 build the retry externals
with `concat`, never `push`). -/
def jsConcat (store : ArrStore) (r : Nat) (extra : List String) : ArrStore × Nat :=
  (store ++ [readArr store r ++ extra], store.length)

/-- Modelled from the spec: the `Externals` type of `src/common.types.ts` (not
under `src/`); §3 calls it the externals specification holding the
externalized-packages list.  The list lives in the array store. -/
structure Externals where
  externalPackages : Nat
deriving DecidableEq, Repr

/-- Modelled from the spec: `BuildPackageOptions` of `src/common.types.ts`
(not under `src/`); §9 lists the recognized fields. -/
structure BuildPackageOptions where
  customImports : Option (List String) := none
  splitCustomImports : Bool := false
  debug : Bool := false
  minifier : Minifier := .terser
  calcParse : Bool := false
  includeDependencySizes : Bool := false
deriving DecidableEq, Repr

/-- Modelled from the spec: `CreateEntryPointOptions` of `src/common.types.ts`
(not under `src/`); §4.1 lists `useModuleSyntax` (`esm`), `customImportNames`
(`customImports`) and `outputFilename` (`entryFilename`, default
`"index.js"`). -/
structure CreateEntryPointOptions where
  esm : Bool
  customImports : Option (List String) := none
  entryFilename : Option String := none
deriving DecidableEq, Repr

/-- One asset of the webpack JSON stats (`name`, `size`, `chunkNames`). -/
structure Asset where
  name : String
  size : Nat
  chunkNames : List String
deriving DecidableEq, Repr

/-- The JSON stats summary produced by `stats.toJson({...})` (lines 217-235):
its own `errors` string list and optional `assets` list. -/
structure JsonStats where
  errors : List String
  assets : Option (List Asset)
deriving DecidableEq, Repr

/-- A webpack `Stats` object: `stats.compilation.errors` and the result of the
`stats.toJson({...})` call with the fixed option bag of lines 217-235 (`none`
models a null summary). -/
structure Stats where
  compilationErrors : List WebpackError
  toJson : Option JsonStats
deriving DecidableEq, Repr

/-- What `compilePackage` resolves with (lines 115-128): the callback's
`stats` (possibly `undefined`) and `error` (possibly null). -/
structure CompileResult where
  stats : Option Stats
  error : Option WebpackError
deriving DecidableEq, Repr

/-- Gzip/parse information attached to one emitted bundle. -/
structure AssetStat where
  name : String
  type : String
  size : Nat
  gzip : Nat
  parse : Option Nat
deriving DecidableEq, Repr

/-- Dependency-size breakdown (external collaborator output). -/
abbrev DependencySizes := List (String × Nat)

/-- What `buildPackage` resolves with: `{assets, dependencySizes?}`, and the
controller's `{ignoredMissingDependencies, ...}` extension. -/
structure BuildResult where
  assets : List AssetStat
  dependencySizes : Option DependencySizes := none
  ignoredMissingDependencies : Option (List String) := none
deriving DecidableEq, Repr

/-- External collaborators of `buildPackage` (out of scope per §1 of the
spec): the filesystem write, the webpack compile capability, the in-memory
output filesystem read-back, gzip, parse-time and dependency-size-tree. -/
structure BuildEnv where
  writeFileOk : String → String → Bool
  compile : String → List (String × String) → Externals → Bool → Minifier → CompileResult
  readFile : String → String
  gzipLength : String → Nat
  parseTime : String → Nat
  cwd : String
  depSizes : String → JsonStats → Minifier → DependencySizes

/-- `path.join` of the two path components used by the source. -/
def pathJoin (a b : String) : String := a ++ "/" ++ b

/-- Arguments of `buildPackage` / `buildPackageIgnoringMissingDeps`. -/
structure BuildPackageArgs where
  name : String
  installPath : String
  externals : Externals
  options : BuildPackageOptions

/-! ## EntryPointSynthesizer — `createEntryPoint` (lines 53-93) -/

/-- `options.entryFilename || 'index.js'` (line 60); the JS `||` also replaces
an empty string. -/
def entryFilenameOr (o : Option String) : String :=
  match o with
  | none => "index.js"
  | some f => if f == "" then "index.js" else f

/-- The synthesized source text (lines 63-85), byte-for-byte including the
template-literal whitespace.  A provided `customImports` array is truthy in JS
even when empty, so `some []` takes the destructuring branch. -/
def importStatementOf (packageName : String) (options : CreateEntryPointOptions) : String :=
  match options.esm, options.customImports with
  | true, some imports =>
    "\n          import \x7b " ++ String.intercalate ", " imports ++
      " \x7d from '" ++ packageName ++ "'; \n          console.log(" ++
      String.intercalate ", " imports ++ ")\n     "
  | true, none => "import p from '" ++ packageName ++ "'; console.log(p)"
  | false, some imports =>
    "\n        const \x7b " ++ String.intercalate ", " imports ++
      " \x7d = require('" ++ packageName ++ "'); \n        console.log(" ++
      String.intercalate ", " imports ++ ")\n        "
  | false, none => "const p = require('" ++ packageName ++ "'); console.log(p)"

/-- `BuildUtils.createEntryPoint` (lines 53-93): writes the synthesized text
to `installPath/entryFilename` and returns the path, or fails with an
`EntryPointError` wrapping the write failure. -/
def createEntryPoint (env : BuildEnv) (packageName installPath : String)
    (options : CreateEntryPointOptions) : Except BuildFailure String :=
  let entryPath := pathJoin installPath (entryFilenameOr options.entryFilename)
  let importStatement := importStatementOf packageName options
  if env.writeFileOk entryPath importStatement then .ok entryPath
  else .error (.entryPointError [entryPath])

/-! ## BuildOrchestrator — `buildPackage` (lines 177-330) -/

/-- Entry-map construction (lines 183-201).  `.ok none` is the
split-mode-with-no-custom-imports short circuit of lines 185-188. -/
def makeEntry (env : BuildEnv) (name installPath : String)
    (options : BuildPackageOptions) :
    Except BuildFailure (Option (List (String × String))) :=
  if options.splitCustomImports then
    match options.customImports with
    | none => .ok none
    | some [] => .ok none
    | some imports =>
      match mapMExcept (fun importt =>
          match createEntryPoint env name installPath
              { esm := true, customImports := some [importt],
                entryFilename := some importt } with
          | .error e => .error e
          | .ok p => .ok (importt, p)) imports with
      | .error e => .error e
      | .ok entries => .ok (some entries)
  else
    match createEntryPoint env name installPath
        { esm := false, customImports := options.customImports,
          entryFilename := none } with
    | .error e => .error e
    | .ok p => .ok (some [("main", p)])

/-- Line 247's payload: `new BuildError(error)`. -/
def invocationErrorStrings (error : Option WebpackError) : List String :=
  match error with
  | some e => [e.str]
  | none => []

/-- The lazy-then-greedy match of `/(.+?)\.bundle\.(.+)$/` (line 289): the
first index `i ≥ 1` at which `.bundle.` occurs with a nonempty remainder
splits the name into `(entryName, extension)`. -/
def splitBundle (s : String) : Option (String × String) :=
  let cs := s.toList
  let pat := ".bundle.".toList
  match ((List.range (cs.length + 1)).filter (fun i =>
      decide (1 ≤ i) && pat.isPrefixOf (cs.drop i) &&
        !(cs.drop (i + pat.length)).isEmpty)).head? with
  | none => none
  | some i => some ((⟨cs.take i⟩ : String), (⟨cs.drop (i + pat.length)⟩ : String))

/-- `getAssetStats` (lines 280-308): read the bundle from the in-memory
filesystem, gzip it, optionally measure parse time, and split
`<name>.bundle.<ext>`; an unrecognized name fails the whole build. -/
def getAssetStats (env : BuildEnv) (options : BuildPackageOptions)
    (asset : Asset) : Except BuildFailure AssetStat :=
  let bundle := pathJoin (pathJoin env.cwd "dist") asset.name
  let bundleContents := env.readFile bundle
  let parseTimes : Option Nat :=
    if options.calcParse then some (env.parseTime bundleContents) else none
  let gzip := env.gzipLength bundleContents
  match splitBundle asset.name with
  | none =>
    .error (.unexpectedBuildError
      ("Found an asset without the `.bundle` suffix. A loader customization might be needed to recognize this asset type" ++ asset.name))
  | some (entryName, extension) =>
    .ok { name := entryName, type := extension, size := asset.size,
          gzip := gzip, parse := parseTimes }

/-- The two asset filters of lines 311-313: drop the `runtime` chunk and
`LICENSE.txt` assets. -/
def survivingAssets (assets : List Asset) : List Asset :=
  (assets.filter (fun asset => !(asset.chunkNames.contains "runtime"))).filter
    (fun asset => !(jsEndsWith asset.name "LICENSE.txt"))

/-- `options.includeDependencySizes && {dependencySizes: await ...}`
(lines 321-327). -/
def depSizesOpt (env : BuildEnv) (req : BuildPackageArgs) (js : JsonStats) :
    Option DependencySizes :=
  if req.options.includeDependencySizes then
    some (env.depSizes req.name js req.options.minifier)
  else none

/-- The success branch (lines 279-328): `jsonStats?.assets?` may be absent,
and `assetStats || []` turns the absent case into an empty list (a present
empty array is truthy in JS and kept as is). -/
def successResult (env : BuildEnv) (req : BuildPackageArgs) (js : JsonStats) :
    Except BuildFailure BuildResult :=
  match js.assets with
  | none => .ok { assets := [], dependencySizes := depSizesOpt env req js }
  | some assets =>
    match mapMExcept (getAssetStats env req.options) (survivingAssets assets) with
    | .error e => .error e
    | .ok assetStats =>
      .ok { assets := assetStats, dependencySizes := depSizesOpt env req js }

/-- Lines 248-278: classification of compiler-level errors. -/
def classifyCompilationErrors (name : String) (st : Stats) (js : JsonStats) :
    Except BuildFailure BuildResult :=
  match parseMissingModules st.compilationErrors with
  | .error e => .error e
  | .ok missingModules =>
    if !missingModules.isEmpty then
      if missingModules.length == 1 && missingModules.headD "" == name then
        .error (.entryPointError (st.compilationErrors.map WebpackError.str))
      else
        .error (.missingDependencyError
          (st.compilationErrors.map WebpackError.str) missingModules)
    else if !js.errors.isEmpty then
      if js.errors.any (fun error => containsSub error "Unexpected character '#'") then
        .error (.cliBuildError js.errors)
      else
        .error (.buildError js.errors)
    else
      .error (.unexpectedBuildError "The webpack stats object was unexpectedly empty")

/-- Lines 214-329, everything after the compiler call.  Line 217 calls
`stats.toJson(...)` BEFORE the `error && !stats` check of line 246, so a
missing stats object raises a JS `TypeError` (property access on
`undefined`), not the `BuildError` of line 247. -/
def buildAfterCompile (env : BuildEnv) (req : BuildPackageArgs)
    (res : CompileResult) : Except BuildFailure BuildResult :=
  match res.stats with
  | none =>
    .error (.jsTypeError "Cannot read properties of undefined (reading toJson)")
  | some st =>
    match st.toJson with
    | none =>
      .error (.unexpectedBuildError "Expected webpack json stats to be non-null, but was null")
    | some js =>
      if res.error.isSome && res.stats.isNone then
        .error (.buildError (invocationErrorStrings res.error))
      else if !st.compilationErrors.isEmpty then
        classifyCompilationErrors req.name st js
      else
        successResult env req js

/-- `BuildUtils.buildPackage` (lines 177-330). -/
def buildPackage (env : BuildEnv) (req : BuildPackageArgs) :
    Except BuildFailure BuildResult :=
  match makeEntry env req.name req.installPath req.options with
  | .error e => .error e
  | .ok none => .ok { assets := [] }
  | .ok (some entry) =>
    buildAfterCompile env req
      (env.compile req.name entry req.externals req.options.debug req.options.minifier)

/-! ## RetryController — `buildPackageIgnoringMissingDeps` (lines 331-400) -/

/-- Collaborators of the retry controller: `buildPackage` seen as a capability
reading the array store, and the `is-valid-npm-name` predicate (an external
npm package). -/
structure RetryEnv where
  isValidNPMName : String → Bool
  build : ArrStore → Externals → Except BuildFailure BuildResult

/-- The widened externals of lines 360-363:
`{...externals, externalPackages: externals.externalPackages.concat(missingModules)}`. -/
def widenExternals (store : ArrStore) (externals : Externals)
    (missingModules : List String) : ArrStore × Externals :=
  let (store2, r) := jsConcat store externals.externalPackages missingModules
  (store2, { externalPackages := r })

/-- Result of one controller run, with the final array store and the list of
externals passed to each `buildPackage` invocation (for the invocation-count
and frame claims). -/
structure RetryOutcome where
  result : Except BuildFailure BuildResult
  store : ArrStore
  calls : List Externals

/-- `BuildUtils.buildPackageIgnoringMissingDeps` (lines 331-400): one attempt,
then at most one retry, gated on `MissingDependencyError`, at most 6 missing
modules, and every name passing `isValidNPMName`. -/
def buildPackageIgnoringMissingDeps (env : RetryEnv) (store : ArrStore)
    (externals : Externals) : RetryOutcome :=
  match env.build store externals with
  | .ok buildResult => { result := .ok buildResult, store := store, calls := [externals] }
  | .error e =>
    match e with
    | .missingDependencyError errs missingModules =>
      if missingModules.length ≤ 6 ∧ missingModules.all env.isValidNPMName = true then
        let (store2, newExternals) := widenExternals store externals missingModules
        match env.build store2 newExternals with
        | .ok rebuiltResult =>
          { result := .ok { rebuiltResult with
              ignoredMissingDependencies := some missingModules },
            store := store2, calls := [externals, newExternals] }
        | .error e2 =>
          { result := .error e2, store := store2, calls := [externals, newExternals] }
      else
        { result := .error (.missingDependencyError errs missingModules),
          store := store, calls := [externals] }
    | _ => { result := .error e, store := store, calls := [externals] }

/-- The two shapes a name extracted by `packageNameFromPath` can have: a
slash-free segment (unscoped branch), or `@scope/name` with slash-free
nonempty scope and name (scoped branch). -/
def ExtractedShape (m : String) : Prop :=
  ('/' ∉ m.toList) ∨
  (∃ s n : List Char,
    m.toList = '@' :: (s ++ '/' :: n) ∧ '/' ∉ s ∧ '/' ∉ n ∧ s ≠ [] ∧ n ≠ [])

/-! ## Concrete fixtures used by counterexamples and witnesses -/

/-- A module-not-found error whose cited path `/@s` begins with a slash, so
the unscoped-branch extraction yields the `@`-prefixed name `@s`. -/
def errSlashAt : WebpackError :=
  { name := "ModuleNotFoundError",
    errorStr := "Can't resolve '/@s' in '/app'",
    str := "ModuleNotFoundError: Can't resolve '/@s' in '/app'" }

/-- A module-not-found error citing the deep scoped path `@s/a/b`, extracted
as `@s/a`. -/
def errScopedDeep : WebpackError :=
  { name := "ModuleNotFoundError",
    errorStr := "Can't resolve '@s/a/b' in '/app'",
    str := "ModuleNotFoundError: Can't resolve '@s/a/b' in '/app'" }

/-- A module-not-found error citing `lodash/get`. -/
def errLodashGet : WebpackError :=
  { name := "ModuleNotFoundError",
    errorStr := "Module not found: Error: Can't resolve 'lodash/get' in '/tmp/pkg'",
    str := "ModuleNotFoundError: Can't resolve 'lodash/get' in '/tmp/pkg'" }

/-- A module-not-found error citing `lodash`. -/
def errLodash : WebpackError :=
  { name := "ModuleNotFoundError",
    errorStr := "Module not found: Error: Can't resolve 'lodash' in '/tmp/pkg'",
    str := "ModuleNotFoundError: Can't resolve 'lodash' in '/tmp/pkg'" }

/-- Errors citing `lodash/get` twice and `lodash` once. -/
def lodashErrsA : List WebpackError := [errLodashGet, errLodash, errLodashGet]

/-- A reordering of `lodashErrsA`. -/
def lodashErrsB : List WebpackError := [errLodash, errLodashGet, errLodashGet]

/-- A module-not-found error citing the plain package `bar`. -/
def errBarNotFound : WebpackError :=
  { name := "ModuleNotFoundError",
    errorStr := "Module not found: Error: Can't resolve 'bar' in '/tmp/pkg'",
    str := "ModuleNotFoundError: Can't resolve 'bar' in '/tmp/pkg'" }

/-- A hard webpack invocation error. -/
def werrHard : WebpackError :=
  { name := "Error", errorStr := "spawn ENOMEM", str := "Error: spawn ENOMEM" }

/-- A plain build request for package `foo` with default options. -/
def reqPlain : BuildPackageArgs :=
  { name := "foo", installPath := "/pkg", externals := { externalPackages := 0 },
    options := {} }

/-- The entry map `buildPackage` builds for `reqPlain` in non-split mode. -/
def entryMain : List (String × String) := [("main", "/pkg/index.js")]

/-- An environment whose compiler invocation fails hard: the callback yields
an error and no stats object at all. -/
def envInvocationError : BuildEnv :=
  { writeFileOk := fun _ _ => true,
    compile := fun _ _ _ _ _ => { stats := none, error := some werrHard },
    readFile := fun _ => "", gzipLength := fun _ => 0, parseTime := fun _ => 0,
    cwd := "/w", depSizes := fun _ _ _ => [] }

/-- Stats of a compilation whose only error is a missing module `bar`. -/
def stBar : Stats :=
  { compilationErrors := [errBarNotFound],
    toJson := some { errors := [errBarNotFound.str], assets := none } }

/-- An environment whose compilation reports one missing module, `bar`. -/
def envMissingBar : BuildEnv :=
  { writeFileOk := fun _ _ => true,
    compile := fun _ _ _ _ _ => { stats := some stBar, error := none },
    readFile := fun _ => "", gzipLength := fun _ => 0, parseTime := fun _ => 0,
    cwd := "/w", depSizes := fun _ _ _ => [] }

/-- A well-formed bundle asset. -/
def mainBundleAsset : Asset :=
  { name := "main.bundle.js", size := 1000, chunkNames := ["main"] }

/-- An asset violating the `<name>.bundle.<ext>` naming convention. -/
def statsJsonAsset : Asset :=
  { name := "stats.json", size := 5, chunkNames := [] }

/-- Stats of a successful compilation that emitted `stats.json` next to a
well-formed bundle. -/
def stBadAsset : Stats :=
  { compilationErrors := [],
    toJson := some { errors := [], assets := some [mainBundleAsset, statsJsonAsset] } }

/-- An environment whose compilation succeeds but emits `stats.json`, an asset
without the `.bundle` naming convention, next to a well-formed bundle. -/
def envBadAsset : BuildEnv :=
  { writeFileOk := fun _ _ => true,
    compile := fun _ _ _ _ _ => { stats := some stBadAsset, error := none },
    readFile := fun _ => "", gzipLength := fun _ => 400, parseTime := fun _ => 0,
    cwd := "/w", depSizes := fun _ _ _ => [] }

/-- Stats of a successful compilation whose JSON summary has no assets list. -/
def stNoAssets : Stats :=
  { compilationErrors := [], toJson := some { errors := [], assets := none } }

/-- An environment whose compilation succeeds with a JSON summary that has no
assets list at all. -/
def envNoAssetsField : BuildEnv :=
  { writeFileOk := fun _ _ => true,
    compile := fun _ _ _ _ _ => { stats := some stNoAssets, error := none },
    readFile := fun _ => "", gzipLength := fun _ => 0, parseTime := fun _ => 0,
    cwd := "/w", depSizes := fun _ _ _ => [] }

/-- An environment where every collaborator refuses to work: even the
filesystem write fails.  Used to show the split-mode short circuit consults no
collaborator. -/
def envInert : BuildEnv :=
  { writeFileOk := fun _ _ => false,
    compile := fun _ _ _ _ _ => { stats := none, error := none },
    readFile := fun _ => "", gzipLength := fun _ => 0, parseTime := fun _ => 0,
    cwd := "/w", depSizes := fun _ _ _ => [] }

/-- Split-mode request with an empty custom-import list. -/
def reqSplitEmpty : BuildPackageArgs :=
  { name := "foo", installPath := "/pkg", externals := { externalPackages := 0 },
    options := { customImports := some [], splitCustomImports := true } }

/-- Initial array store for the controller fixtures: one externals array
holding `ext0`. -/
def storeW : ArrStore := [["ext0"]]

/-- Externals reference for the controller fixtures. -/
def extW : Externals := { externalPackages := 0 }

/-- A retry-controller environment: the first build fails with a
`MissingDependencyError` for `bar`, a rebuild with `bar` externalized
succeeds. -/
def envRetryOk : RetryEnv :=
  { isValidNPMName := fun s => !(s.isEmpty),
    build := fun store externals =>
      if (readArr store externals.externalPackages).contains "bar" then
        .ok { assets := [] }
      else
        .error (.missingDependencyError [errBarNotFound.str] ["bar"]) }

/-- A retry-controller environment where the retried build throws too. -/
def envRetryFails : RetryEnv :=
  { isValidNPMName := fun s => !(s.isEmpty),
    build := fun store externals =>
      if (readArr store externals.externalPackages).contains "bar" then
        .error (.buildError ["second failure"])
      else
        .error (.missingDependencyError [errBarNotFound.str] ["bar"]) }

/-! ## Helper lemmas -/

theorem toList_append (a b : String) : (a ++ b).toList = a.toList ++ b.toList :=
  String.data_append a b

theorem jsStartsWith_iff {s pre : String} :
    jsStartsWith s pre = true ↔ ∃ t, s.toList = pre.toList ++ t := by
  constructor
  · intro h
    rcases List.isPrefixOf_iff_prefix.mp h with ⟨t, ht⟩
    exact ⟨t, ht.symm⟩
  · intro ⟨t, ht⟩
    exact List.isPrefixOf_iff_prefix.mpr ⟨t, ht.symm⟩

theorem jsStartsWith_append_slash_self (s : String) :
    jsStartsWith s (s ++ "/") = false := by
  cases h : jsStartsWith s (s ++ "/") with
  | false => rfl
  | true =>
    rcases jsStartsWith_iff.mp h with ⟨t, ht⟩
    have hlen := congrArg List.length ht
    rw [toList_append] at hlen
    simp only [List.length_append] at hlen
    have h1 : ("/" : String).toList.length = 1 := rfl
    rw [h1] at hlen
    omega

theorem takeWhile_middle {p : Char → Bool} :
    ∀ (xs : List Char) (y : Char) (ys : List Char),
      (∀ x ∈ xs, p x = true) → p y = false →
      (xs ++ y :: ys).takeWhile p = xs := by
  intro xs y ys h hy
  induction xs with
  | nil => simp [List.takeWhile_cons, hy]
  | cons a as ih =>
    have ha : p a = true := h a (by simp)
    simp only [List.cons_append, List.takeWhile_cons, ha, if_true]
    rw [ih (fun x hx => h x (by simp [hx]))]

theorem mem_of_takeWhile_ne_slash {l m : List Char}
    (h : m = l.takeWhile (fun c => !(c == '/'))) : '/' ∉ m := by
  intro hmem
  subst h
  have := List.mem_takeWhile_imp hmem
  simp at this

theorem scopedAt_shape {cs m : List Char} (h : scopedAt cs = some m) :
    ∃ s n : List Char,
      m = '@' :: (s ++ '/' :: n) ∧ '/' ∉ s ∧ '/' ∉ n ∧ s ≠ [] ∧ n ≠ [] := by
  match cs with
  | [] => simp [scopedAt] at h
  | c :: rest =>
    simp only [scopedAt] at h
    split at h
    case isTrue hc =>
      split at h
      case isTrue => exact absurd h (by simp)
      case isFalse hscope =>
        split at h
        case h_1 => exact absurd h (by simp)
        case h_2 d rest2 heq =>
          split at h
          case isTrue hd =>
            split at h
            case isTrue => exact absurd h (by simp)
            case isFalse hnm =>
              refine ⟨rest.takeWhile (fun c => !(c == '/')),
                      rest2.takeWhile (fun c => !(c == '/')), ?_, ?_, ?_, ?_, ?_⟩
              · exact (Option.some.inj h).symm
              · exact mem_of_takeWhile_ne_slash rfl
              · exact mem_of_takeWhile_ne_slash rfl
              · simpa [List.isEmpty_iff] using hscope
              · simpa [List.isEmpty_iff] using hnm
          case isFalse => exact absurd h (by simp)
    case isFalse => exact absurd h (by simp)

theorem scopedFirst_shape :
    ∀ {cs m : List Char}, scopedFirst cs = some m →
      ∃ s n : List Char,
        m = '@' :: (s ++ '/' :: n) ∧ '/' ∉ s ∧ '/' ∉ n ∧ s ≠ [] ∧ n ≠ [] := by
  intro cs
  induction cs with
  | nil => intro m h; simp [scopedFirst] at h
  | cons c rest ih =>
    intro m h
    rw [scopedFirst] at h
    split at h
    case h_1 m2 hsa => exact scopedAt_shape (hsa.trans h)
    case h_2 => exact ih h

theorem firstSegment_shape {cs m : List Char} (h : firstSegment cs = some m) :
    '/' ∉ m := by
  rw [firstSegment] at h
  split at h
  case h_1 => exact absurd h (by simp)
  case h_2 c rest heq =>
    exact mem_of_takeWhile_ne_slash (Option.some.inj h).symm

theorem packageNameFromPath_shape {p m : String}
    (h : packageNameFromPath p = some m) : ExtractedShape m := by
  rw [packageNameFromPath] at h
  split at h
  · rcases Option.map_eq_some'.mp h with ⟨l, hl, rfl⟩
    rcases scopedFirst_shape hl with ⟨s, n, hm, hs, hn, hse, hne⟩
    exact Or.inr ⟨s, n, hm, hs, hn, hse, hne⟩
  · rcases Option.map_eq_some'.mp h with ⟨l, hl, rfl⟩
    exact Or.inl (firstSegment_shape hl)

theorem extractOne_shape {e : WebpackError} {m : String}
    (h : extractOne e = .ok m) : ExtractedShape m := by
  rw [extractOne] at h
  split at h
  · exact absurd h (by simp)
  · split at h
    · exact absurd h (by simp)
    case h_2 p hp pn hpn =>
      cases h
      exact packageNameFromPath_shape hpn

theorem notSlash_of_ne {x : Char} (hx : x ≠ '/') : (!(x == '/')) = true := by
  simp [hx]

theorem takeWhile_notSlash_middle {xs : List Char} (hxs : '/' ∉ xs) (t : List Char) :
    (xs ++ '/' :: t).takeWhile (fun c => !(c == '/')) = xs := by
  apply takeWhile_middle
  · intro x hx
    exact notSlash_of_ne (fun hcontra => hxs (hcontra ▸ hx))
  · simp

/-- If one extracted name extended by `/` is a prefix of another extracted
name, then the shorter one is a slash-free `@`-headed string (so the scoped
shape of the longer one forces `a = @scope`). -/
theorem subpath_structure {a b : String}
    (ha : ExtractedShape a) (hb : ExtractedShape b)
    (hpre : jsStartsWith b (a ++ "/") = true) :
    jsStartsWith a "@" = true ∧ '/' ∉ a.toList := by
  rcases jsStartsWith_iff.mp hpre with ⟨t, ht⟩
  rw [toList_append] at ht
  have hslash : ("/" : String).toList = ['/'] := rfl
  rw [hslash] at ht
  have ht' : b.toList = a.toList ++ '/' :: t := by
    rw [ht]; simp
  have hbmem : '/' ∈ b.toList := by rw [ht']; simp
  rcases hb with hb | ⟨s, n, hbl, hs, hn, hse, hne⟩
  · exact absurd hbmem hb
  · have hmain : '@' :: (s ++ '/' :: n) = a.toList ++ '/' :: t := by
      rw [← hbl, ht']
    have hTL : ('@' :: (s ++ '/' :: n)).takeWhile (fun c => !(c == '/')) = '@' :: s := by
      have hsplit : '@' :: (s ++ '/' :: n) = ('@' :: s) ++ '/' :: n := by simp
      rw [hsplit]
      apply takeWhile_notSlash_middle
      intro hcontra
      rcases List.mem_cons.mp hcontra with hcc | hcc
      · exact absurd hcc.symm (by decide)
      · exact hs hcc
    rcases ha with ha | ⟨s2, n2, hal, hs2, hn2, hs2e, hn2e⟩
    · have hTR : (a.toList ++ '/' :: t).takeWhile (fun c => !(c == '/')) = a.toList :=
        takeWhile_notSlash_middle ha t
      have hAeq : a.toList = '@' :: s := by
        rw [← hTR, ← hmain, hTL]
      refine ⟨jsStartsWith_iff.mpr ⟨s, ?_⟩, ha⟩
      rw [hAeq]; rfl
    · exfalso
      have hmain2 : '@' :: (s ++ '/' :: n) = '@' :: (s2 ++ '/' :: (n2 ++ '/' :: t)) := by
        rw [hmain, hal]; simp
      have htail : s ++ '/' :: n = s2 ++ '/' :: (n2 ++ '/' :: t) :=
        (List.cons.injEq _ _ _ _ ▸ hmain2).2
      have hseq : s = s2 := by
        have h1 : (s ++ '/' :: n).takeWhile (fun c => !(c == '/')) = s :=
          takeWhile_notSlash_middle hs n
        have h2 : (s2 ++ '/' :: (n2 ++ '/' :: t)).takeWhile (fun c => !(c == '/')) = s2 :=
          takeWhile_notSlash_middle hs2 _
        rw [← h1, ← h2, htail]
      subst hseq
      have hcanc : '/' :: n = '/' :: (n2 ++ '/' :: t) :=
        List.append_cancel_left htail
      have hneq : n = n2 ++ '/' :: t := (List.cons.injEq _ _ _ _ ▸ hcanc).2
      exact hn (hneq ▸ (by simp : '/' ∈ n2 ++ '/' :: t))

theorem dedupFirstAux_mem {a : String} :
    ∀ (l seen : List String), a ∈ dedupFirstAux seen l ↔ (a ∈ l ∧ a ∉ seen) := by
  intro l
  induction l with
  | nil => intro seen; simp [dedupFirstAux]
  | cons x xs ih =>
    intro seen
    by_cases hx : x ∈ seen
    · simp only [dedupFirstAux, if_pos hx]
      rw [ih seen]
      constructor
      · rintro ⟨hal, hans⟩
        exact ⟨List.mem_cons_of_mem _ hal, hans⟩
      · rintro ⟨hal, hans⟩
        rcases List.mem_cons.mp hal with rfl | hal
        · exact absurd hx hans
        · exact ⟨hal, hans⟩
    · simp only [dedupFirstAux, if_neg hx]
      constructor
      · intro h
        rcases List.mem_cons.mp h with rfl | h
        · exact ⟨by simp, hx⟩
        · rcases (ih (x :: seen)).mp h with ⟨hal, hans⟩
          exact ⟨List.mem_cons_of_mem _ hal,
                 fun hcontra => hans (List.mem_cons_of_mem _ hcontra)⟩
      · rintro ⟨hal, hans⟩
        rcases List.mem_cons.mp hal with rfl | hal
        · simp
        · by_cases hax : a = x
          · simp [hax]
          · refine List.mem_cons_of_mem _ ?_
            refine (ih (x :: seen)).mpr ⟨hal, ?_⟩
            intro hcontra
            rcases List.mem_cons.mp hcontra with h | h
            · exact hax h
            · exact hans h

theorem dedupFirst_mem {a : String} (l : List String) :
    a ∈ dedupFirst l ↔ a ∈ l := by
  rw [dedupFirst, dedupFirstAux_mem]
  simp

theorem dedupFirstAux_nodup :
    ∀ (l seen : List String), (dedupFirstAux seen l).Nodup := by
  intro l
  induction l with
  | nil => intro seen; simp [dedupFirstAux]
  | cons x xs ih =>
    intro seen
    by_cases hx : x ∈ seen
    · simp only [dedupFirstAux, if_pos hx]
      exact ih seen
    · simp only [dedupFirstAux, if_neg hx]
      refine List.nodup_cons.mpr ⟨?_, ih (x :: seen)⟩
      intro hmem
      exact ((dedupFirstAux_mem _ _).mp hmem).2 (by simp)

theorem dedupFirst_nodup (l : List String) : (dedupFirst l).Nodup :=
  dedupFirstAux_nodup l []

theorem mapMExcept_ok_mem {α β : Type} {f : α → Except BuildFailure β} :
    ∀ {l : List α} {bs : List β}, mapMExcept f l = .ok bs →
      ∀ b ∈ bs, ∃ a ∈ l, f a = .ok b := by
  intro l
  induction l with
  | nil =>
    intro bs h b hb
    simp only [mapMExcept, Except.ok.injEq] at h
    subst h
    exact absurd hb (by simp)
  | cons a as ih =>
    intro bs h b hb
    cases hfa : f a with
    | error e => simp [mapMExcept, hfa] at h
    | ok b0 =>
      cases hrest : mapMExcept f as with
      | error e => simp [mapMExcept, hfa, hrest] at h
      | ok bs0 =>
        simp only [mapMExcept, hfa, hrest, Except.ok.injEq] at h
        subst h
        rcases List.mem_cons.mp hb with rfl | hb
        · exact ⟨a, by simp, hfa⟩
        · rcases ih hrest b hb with ⟨a2, ha2, hfa2⟩
          exact ⟨a2, List.mem_cons_of_mem _ ha2, hfa2⟩

theorem mapMExcept_ok_of_forall {α β : Type} {f : α → Except BuildFailure β} :
    ∀ {l : List α}, (∀ a ∈ l, ∃ b, f a = .ok b) →
      ∃ bs, mapMExcept f l = .ok bs := by
  intro l
  induction l with
  | nil => intro _; exact ⟨[], rfl⟩
  | cons a as ih =>
    intro h
    rcases h a (by simp) with ⟨b, hb⟩
    rcases ih (fun a2 ha2 => h a2 (List.mem_cons_of_mem _ ha2)) with ⟨bs, hbs⟩
    exact ⟨b :: bs, by simp [mapMExcept, hb, hbs]⟩

theorem mapMExcept_ok_forall {α β : Type} {f : α → Except BuildFailure β} :
    ∀ {l : List α} {bs : List β}, mapMExcept f l = .ok bs →
      ∀ a ∈ l, ∃ b, f a = .ok b := by
  intro l
  induction l with
  | nil => intro bs _ a ha; exact absurd ha (by simp)
  | cons a0 as ih =>
    intro bs h a ha
    cases hfa : f a0 with
    | error e => simp [mapMExcept, hfa] at h
    | ok b0 =>
      cases hrest : mapMExcept f as with
      | error e => simp [mapMExcept, hfa, hrest] at h
      | ok bs0 =>
        rcases List.mem_cons.mp ha with rfl | ha
        · exact ⟨b0, hfa⟩
        · exact ih hrest a ha

theorem mapMExcept_perm {α β : Type} {f : α → Except BuildFailure β} :
    ∀ {l l' : List α}, l.Perm l' → ∀ {bs bs' : List β},
      mapMExcept f l = .ok bs → mapMExcept f l' = .ok bs' → bs.Perm bs' := by
  intro l l' hperm
  induction hperm with
  | nil =>
    intro bs bs' h h'
    simp only [mapMExcept, Except.ok.injEq] at h h'
    subst h; subst h'
    exact List.Perm.refl _
  | cons x hrest ih =>
    rename_i l₁ l₂
    intro bs bs' h h'
    cases hfx : f x with
    | error e => simp [mapMExcept, hfx] at h
    | ok bx =>
      cases hrest0 : mapMExcept f l₁ with
      | error e => simp [mapMExcept, hfx, hrest0] at h
      | ok bs0 =>
        cases hrest1 : mapMExcept f l₂ with
        | error e => simp [mapMExcept, hfx, hrest1] at h'
        | ok bs1 =>
          simp only [mapMExcept, hfx, hrest0, hrest1, Except.ok.injEq] at h h'
          subst h; subst h'
          exact List.Perm.cons _ (ih hrest0 hrest1)
  | swap x y rest =>
    intro bs bs' h h'
    cases hfy : f y with
    | error e => simp [mapMExcept, hfy] at h
    | ok byv =>
      cases hfx : f x with
      | error e => simp [mapMExcept, hfx] at h'
      | ok bx =>
        cases hrest : mapMExcept f rest with
        | error e => simp [mapMExcept, hfx, hfy, hrest] at h
        | ok bsr =>
          simp only [mapMExcept, hfx, hfy, hrest, Except.ok.injEq] at h h'
          subst h; subst h'
          exact List.Perm.swap _ _ _
  | trans hab hbc iha ihb =>
    rename_i l₁ l₂ l₃
    intro bs bs' h h'
    have hmid : ∃ bsm, mapMExcept f l₂ = .ok bsm := by
      apply mapMExcept_ok_of_forall
      intro a ha
      exact mapMExcept_ok_forall h a (hab.mem_iff.mpr ha)
    rcases hmid with ⟨bsm, hbsm⟩
    exact (iha h hbsm).trans (ihb hbsm h')

theorem mapMExcept_error_exists {α β : Type} {f : α → Except BuildFailure β} :
    ∀ {l : List α} {a : α}, a ∈ l → ∀ {e : BuildFailure}, f a = .error e →
      ∃ e2, mapMExcept f l = .error e2 ∧ ∃ a2 ∈ l, f a2 = .error e2 := by
  intro l
  induction l with
  | nil => intro a ha; exact absurd ha (by simp)
  | cons a0 as ih =>
    intro a ha e hfe
    cases hfa0 : f a0 with
    | error e0 =>
      refine ⟨e0, ?_, a0, by simp, hfa0⟩
      simp [mapMExcept, hfa0]
    | ok b0 =>
      have has : a ∈ as := by
        rcases List.mem_cons.mp ha with rfl | h
        · rw [hfa0] at hfe; exact absurd hfe (by simp)
        · exact h
      rcases ih has hfe with ⟨e2, hmap, a2, ha2, hfa2⟩
      refine ⟨e2, ?_, a2, List.mem_cons_of_mem _ ha2, hfa2⟩
      simp [mapMExcept, hfa0, hmap]

theorem getAssetStats_error_shape {env : BuildEnv} {options : BuildPackageOptions}
    {asset : Asset} {e : BuildFailure}
    (h : getAssetStats env options asset = .error e) :
    ∃ msg, e = .unexpectedBuildError msg := by
  rw [getAssetStats] at h
  split at h
  · exact ⟨_, (Except.error.inj h).symm⟩
  · exact absurd h (by simp)

theorem dropSubOfHead_eq_self {u : List String}
    (hshape : ∀ m ∈ u, ExtractedShape m)
    (hat : ∀ m ∈ dropSubOfHead u, jsStartsWith m "@" = true → '/' ∈ m.toList) :
    dropSubOfHead u = u := by
  cases u with
  | nil => rfl
  | cons u0 rest =>
    have hhead : (u0 :: rest).headD "" = u0 := rfl
    have h0mem : u0 ∈ dropSubOfHead (u0 :: rest) := by
      rw [dropSubOfHead]
      refine List.mem_filter.mpr ⟨by simp, ?_⟩
      simp [hhead, jsStartsWith_append_slash_self]
    rw [dropSubOfHead]
    apply List.filter_eq_self.mpr
    intro b hb
    cases hsw : jsStartsWith b ((u0 :: rest).headD "" ++ "/") with
    | false => simp [hsw]
    | true =>
      exfalso
      rw [hhead] at hsw
      have hsub := subpath_structure (hshape u0 (by simp)) (hshape b hb) hsw
      exact hsub.2 (hat u0 h0mem hsub.1)

theorem parseMissingModules_ok_structure {errs : List WebpackError} {l : List String}
    (h : parseMissingModules errs = .ok l) :
    (errs.filter (fun e => e.name == "ModuleNotFoundError") = [] ∧ l = []) ∨
    (∃ ns, mapMExcept extractOne
        (errs.filter (fun e => e.name == "ModuleNotFoundError")) = .ok ns ∧
       l = dropSubOfHead (dedupFirst ns)) := by
  simp only [parseMissingModules] at h
  split at h
  case isTrue hemp =>
    left
    refine ⟨List.isEmpty_iff.mp hemp, ?_⟩
    exact (Except.ok.inj h).symm
  case isFalse hemp =>
    right
    split at h
    · exact absurd h (by simp)
    case h_2 ns hns =>
      exact ⟨ns, hns, (Except.ok.inj h).symm⟩

/-- Claim C3 (amended): `_parseMissingModules` deduplicates, but the sub-path
filter of lines 169-172 only removes sub-paths of the FIRST deduplicated
name.  Provided no returned name is a bare `@`-headed segment without a slash
(which can only arise from a cited path whose first slash-free run starts
with `@`, e.g. `/@s`), the filter removes nothing: the result is the
first-occurrence deduplication of the extracted names — `Nodup`, free of
strict sub-path pairs, and with membership invariant under reordering of the
input error list; errors citing `lodash/get` twice and `lodash` once yield
exactly `["lodash"]` (see the witness). -/
theorem parseMissingModules_dedup_amended
    (errs errs' : List WebpackError) (l l' : List String)
    (hperm : errs.Perm errs')
    (h : parseMissingModules errs = .ok l)
    (h' : parseMissingModules errs' = .ok l')
    (hat : ∀ m ∈ l, jsStartsWith m "@" = true → '/' ∈ m.toList)
    (hat' : ∀ m ∈ l', jsStartsWith m "@" = true → '/' ∈ m.toList) :
    l.Nodup ∧
    (∀ a ∈ l, ∀ b ∈ l, jsStartsWith b (a ++ "/") = false) ∧
    (∀ m : String, m ∈ l ↔ m ∈ l') := by
  have hpermf := hperm.filter (fun e => e.name == "ModuleNotFoundError")
  rcases parseMissingModules_ok_structure h with ⟨hemp, rfl⟩ | ⟨ns, hns, rfl⟩
  · rcases parseMissingModules_ok_structure h' with ⟨hemp', rfl⟩ | ⟨ns', hns', rfl⟩
    · simp
    · have hfe : errs'.filter (fun e => e.name == "ModuleNotFoundError") = [] := by
        rw [hemp] at hpermf
        exact (hpermf.symm).eq_nil
      rw [hfe] at hns'
      simp only [mapMExcept, Except.ok.injEq] at hns'
      subst hns'
      simp [dedupFirst, dedupFirstAux, dropSubOfHead]
  · have hshape : ∀ m ∈ dedupFirst ns, ExtractedShape m := by
      intro m hm
      rcases mapMExcept_ok_mem hns m ((dedupFirst_mem ns).mp hm) with ⟨e, _, he⟩
      exact extractOne_shape he
    have hl : dropSubOfHead (dedupFirst ns) = dedupFirst ns :=
      dropSubOfHead_eq_self hshape hat
    rcases parseMissingModules_ok_structure h' with ⟨hemp', rfl⟩ | ⟨ns', hns', rfl⟩
    · have hfe : errs.filter (fun e => e.name == "ModuleNotFoundError") = [] := by
        rw [hemp'] at hpermf
        exact hpermf.eq_nil
      rw [hfe] at hns
      simp only [mapMExcept, Except.ok.injEq] at hns
      subst hns
      simp [dedupFirst, dedupFirstAux, dropSubOfHead]
    · have hshape' : ∀ m ∈ dedupFirst ns', ExtractedShape m := by
        intro m hm
        rcases mapMExcept_ok_mem hns' m ((dedupFirst_mem ns').mp hm) with ⟨e, _, he⟩
        exact extractOne_shape he
      have hl' : dropSubOfHead (dedupFirst ns') = dedupFirst ns' :=
        dropSubOfHead_eq_self hshape' hat'
      have hnsperm : ns.Perm ns' := mapMExcept_perm hpermf hns hns'
      rw [hl, hl']
      refine ⟨dedupFirst_nodup ns, ?_, ?_⟩
      · intro a ha b hb
        cases hsw : jsStartsWith b (a ++ "/") with
        | false => rfl
        | true =>
          exfalso
          have hsub := subpath_structure (hshape a ha) (hshape b hb) hsw
          have hal : a ∈ dropSubOfHead (dedupFirst ns) := by rw [hl]; exact ha
          exact hsub.2 (hat a hal hsub.1)
      · intro m
        rw [dedupFirst_mem, dedupFirst_mem]
        exact hnsperm.mem_iff

/-- Claim C3 (counterexample): on the reordering-sensitive input pair built
from the paths `/@s` and `@s/a/b`, `_parseMissingModules` keeps `@s/a` even
though `@s` is also present (the sub-path filter only checks against the
first deduplicated name), and the returned set differs between the two
orderings of the same two errors. -/
theorem parseMissingModules_subpath_counterexample :
    parseMissingModules [errScopedDeep, errSlashAt] = .ok ["@s/a", "@s"] ∧
    parseMissingModules [errSlashAt, errScopedDeep] = .ok ["@s"] ∧
    [errScopedDeep, errSlashAt].Perm [errSlashAt, errScopedDeep] ∧
    jsStartsWith "@s/a" ("@s" ++ "/") = true ∧
    ¬ (("@s/a" : String) ∈ (["@s"] : List String)) := by
  refine ⟨by decide, by decide, by decide, by decide, by decide⟩

/-- Witness for the amended C3 theorem at the spec's own example: errors
citing `lodash/get` twice and `lodash` once (in two orders) yield exactly
`["lodash"]`, which is duplicate-free, sub-path-free and order-independent. -/
theorem parseMissingModules_dedup_amended_witness :
    (["lodash"] : List String).Nodup ∧
    (∀ a ∈ (["lodash"] : List String), ∀ b ∈ (["lodash"] : List String),
      jsStartsWith b (a ++ "/") = false) ∧
    (∀ m : String, m ∈ (["lodash"] : List String) ↔ m ∈ (["lodash"] : List String)) :=
  parseMissingModules_dedup_amended lodashErrsA lodashErrsB ["lodash"] ["lodash"]
    (by decide) (by decide) (by decide) (by decide) (by decide)

/-! ## BuildOrchestrator claims -/

theorem buildPackage_eq_afterCompile {env : BuildEnv} {req : BuildPackageArgs}
    {entry : List (String × String)}
    (hentry : makeEntry env req.name req.installPath req.options = .ok (some entry)) :
    buildPackage env req = buildAfterCompile env req
      (env.compile req.name entry req.externals req.options.debug req.options.minifier) := by
  simp only [buildPackage]
  rw [hentry]

/-- Claim C1 (code bug): when the compiler invocation yields a hard error and
no stats object at all, line 217 (`stats.toJson({...})`) raises an
unclassified JS `TypeError` (property access on `undefined`) before the
`error && !stats` check of line 246 can be reached, so `buildPackage` does
NOT fail with the `BuildError` that line 247 (and the spec) prescribe. -/
theorem buildPackage_hard_error_no_stats_typeerror :
    buildPackage envInvocationError reqPlain =
      .error (.jsTypeError "Cannot read properties of undefined (reading toJson)") ∧
    buildPackage envInvocationError reqPlain ≠
      .error (.buildError (invocationErrorStrings (some werrHard))) := by
  refine ⟨by decide, by decide⟩

/-- Claim C8: with `splitCustomImports` set and `customImports` absent or
empty, `buildPackage` returns `{assets: []}` for EVERY environment: the
result does not depend on the write or compile collaborators, so no entry
point is synthesized and the compiler is never invoked (lines 185-188). -/
theorem buildPackage_split_empty_short_circuit (env : BuildEnv) (req : BuildPackageArgs)
    (h1 : req.options.splitCustomImports = true)
    (h2 : req.options.customImports = none ∨ req.options.customImports = some []) :
    buildPackage env req = .ok { assets := [] } := by
  have hentry : makeEntry env req.name req.installPath req.options = .ok none := by
    rw [makeEntry, h1]
    rcases h2 with h2 | h2 <;> rw [h2] <;> simp
  simp only [buildPackage]
  rw [hentry]

/-- Witness for C8: in an environment where even the filesystem write fails
and the compiler returns garbage, the split-mode empty-imports request still
resolves to `{assets: []}`. -/
theorem buildPackage_split_empty_short_circuit_witness :
    buildPackage envInert reqSplitEmpty = .ok { assets := [] } :=
  buildPackage_split_empty_short_circuit envInert reqSplitEmpty rfl (Or.inr rfl)

/-- Claim C10: when the compiler reports no errors but the JSON stats summary
contains no assets list at all, `buildPackage` resolves with an empty assets
list (`jsonStats?.assets?` short-circuits to `undefined` and
`assetStats || []` substitutes `[]`, lines 310-320). -/
theorem buildPackage_no_assets_list
    (env : BuildEnv) (req : BuildPackageArgs) (entry : List (String × String))
    (st : Stats) (js : JsonStats) (errOpt : Option WebpackError)
    (hentry : makeEntry env req.name req.installPath req.options = .ok (some entry))
    (hcompile : env.compile req.name entry req.externals req.options.debug req.options.minifier
      = { stats := some st, error := errOpt })
    (hjson : st.toJson = some js)
    (hnoerr : st.compilationErrors = [])
    (hassets : js.assets = none) :
    ∃ r, buildPackage env req = .ok r ∧ r.assets = [] := by
  rw [buildPackage_eq_afterCompile hentry, hcompile]
  simp only [buildAfterCompile, hjson, hnoerr, successResult, hassets]
  simp

/-- Witness for C10. -/
theorem buildPackage_no_assets_list_witness :
    ∃ r, buildPackage envNoAssetsField reqPlain = .ok r ∧ r.assets = [] :=
  buildPackage_no_assets_list envNoAssetsField reqPlain entryMain stNoAssets
    { errors := [], assets := none } none (by decide) rfl rfl rfl rfl

/-- Claim C9: after a successful compilation, if any surviving asset (neither
the `runtime` chunk nor a `LICENSE.txt` asset) has a name that does not match
`<name>.bundle.<ext>`, the whole build fails with an `UnexpectedBuildError`
instead of skipping the asset (lines 289-297). -/
theorem buildPackage_unrecognized_asset_fails
    (env : BuildEnv) (req : BuildPackageArgs) (entry : List (String × String))
    (st : Stats) (js : JsonStats) (errOpt : Option WebpackError) (assets : List Asset)
    (hentry : makeEntry env req.name req.installPath req.options = .ok (some entry))
    (hcompile : env.compile req.name entry req.externals req.options.debug req.options.minifier
      = { stats := some st, error := errOpt })
    (hjson : st.toJson = some js)
    (hnoerr : st.compilationErrors = [])
    (hassets : js.assets = some assets)
    (hbad : ∃ a ∈ survivingAssets assets, splitBundle a.name = none) :
    ∃ msg, buildPackage env req = .error (.unexpectedBuildError msg) := by
  rcases hbad with ⟨a, ha, hsplit⟩
  have hfe : ∃ e, getAssetStats env req.options a = .error e := by
    simp only [getAssetStats, hsplit]
    exact ⟨_, rfl⟩
  rcases hfe with ⟨e, hfe⟩
  rcases mapMExcept_error_exists ha hfe with ⟨e2, hmap, a2, _, hfa2⟩
  rcases getAssetStats_error_shape hfa2 with ⟨msg, rfl⟩
  refine ⟨msg, ?_⟩
  rw [buildPackage_eq_afterCompile hentry, hcompile]
  simp only [buildAfterCompile, hjson, hnoerr, successResult, hassets, hmap]
  simp

/-- Witness for C9: the build that emitted `stats.json` fails as a whole with
an `UnexpectedBuildError` (even though `main.bundle.js` is well-formed). -/
theorem buildPackage_unrecognized_asset_fails_witness :
    ∃ msg, buildPackage envBadAsset reqPlain = .error (.unexpectedBuildError msg) :=
  buildPackage_unrecognized_asset_fails envBadAsset reqPlain entryMain stBadAsset
    { errors := [], assets := some [mainBundleAsset, statsJsonAsset] } none
    [mainBundleAsset, statsJsonAsset]
    (by decide) rfl rfl rfl rfl
    ⟨statsJsonAsset, by decide, by decide⟩

/-- Claim C4: with compiler-level errors whose classification yields a
non-empty missing-module set, `buildPackage` throws `EntryPointError` exactly
when that set is the singleton containing the package under build, and
`MissingDependencyError` (carrying the classifier's missing-module list as
structured extra data) in every other case, including when the set contains
the package name together with other names (lines 253-263). -/
theorem buildPackage_missing_modules_classification
    (env : BuildEnv) (req : BuildPackageArgs) (entry : List (String × String))
    (st : Stats) (js : JsonStats) (errOpt : Option WebpackError) (missing : List String)
    (hentry : makeEntry env req.name req.installPath req.options = .ok (some entry))
    (hcompile : env.compile req.name entry req.externals req.options.debug req.options.minifier
      = { stats := some st, error := errOpt })
    (hjson : st.toJson = some js)
    (hparse : parseMissingModules st.compilationErrors = .ok missing)
    (hne : missing ≠ []) :
    (missing = [req.name] →
      buildPackage env req =
        .error (.entryPointError (st.compilationErrors.map WebpackError.str))) ∧
    (missing ≠ [req.name] →
      buildPackage env req =
        .error (.missingDependencyError (st.compilationErrors.map WebpackError.str) missing)) := by
  have hcerr : st.compilationErrors ≠ [] := by
    intro h0
    rw [h0] at hparse
    have h00 : parseMissingModules ([] : List WebpackError) = .ok ([] : List String) := rfl
    rw [h00] at hparse
    exact hne (Except.ok.inj hparse).symm
  have hcerrb : st.compilationErrors.isEmpty = false := by
    cases hval : st.compilationErrors with
    | nil => exact absurd hval hcerr
    | cons x xs => rfl
  have hneb : missing.isEmpty = false := by
    cases hval : missing with
    | nil => exact absurd hval hne
    | cons x xs => rfl
  have hred : buildPackage env req = classifyCompilationErrors req.name st js := by
    rw [buildPackage_eq_afterCompile hentry, hcompile]
    simp only [buildAfterCompile, hjson, hcerrb]
    simp
  constructor
  · intro heq
    rw [hred]
    simp only [classifyCompilationErrors, hparse, heq, hneb]
    simp
  · intro hne2
    have hcond : (missing.length == 1 && missing.headD "" == req.name) = false := by
      cases hc : (missing.length == 1 && missing.headD "" == req.name) with
      | false => rfl
      | true =>
        exfalso
        rcases Bool.and_eq_true_iff.mp hc with ⟨hlen, hhead⟩
        have hlen2 : missing.length = 1 := by simpa using hlen
        rcases List.length_eq_one.mp hlen2 with ⟨x, rfl⟩
        have hx : x = req.name := by simpa using hhead
        exact hne2 (by rw [hx])
    rw [hred]
    simp only [classifyCompilationErrors, hparse, hneb, hcond]
    simp

/-- Witness for C4 (the `MissingDependencyError` case): building `foo` when
the only compiler error is a missing module `bar`. -/
theorem buildPackage_missing_modules_classification_witness :
    buildPackage envMissingBar reqPlain =
      .error (.missingDependencyError (stBar.compilationErrors.map WebpackError.str) ["bar"]) :=
  (buildPackage_missing_modules_classification envMissingBar reqPlain entryMain stBar
      { errors := [errBarNotFound.str], assets := none } none ["bar"]
      (by decide) rfl rfl (by decide) (by decide)).2 (by decide)

/-! ## RetryController claims -/

theorem readArr_concat_self (store : ArrStore) (x : List String) :
    readArr (store ++ [x]) store.length = x := by
  simp [readArr, List.getD_eq_getElem?_getD, List.getElem?_concat_length]

theorem readArr_append_of_lt (store : ArrStore) (x : List String) {r : Nat}
    (h : r < store.length) : readArr (store ++ [x]) r = readArr store r := by
  simp only [readArr, List.getD_eq_getElem?_getD]
  rw [List.getElem?_append_left h]

theorem retryController_eq_of_cond {env : RetryEnv} {σ : ArrStore}
    {externals : Externals} {errs missing : List String}
    (hfirst : env.build σ externals = .error (.missingDependencyError errs missing))
    (hcond : missing.length ≤ 6 ∧ missing.all env.isValidNPMName = true) :
    buildPackageIgnoringMissingDeps env σ externals =
      (match env.build (σ ++ [readArr σ externals.externalPackages ++ missing])
          { externalPackages := σ.length } with
       | .ok rebuiltResult =>
         { result := .ok { rebuiltResult with ignoredMissingDependencies := some missing },
           store := σ ++ [readArr σ externals.externalPackages ++ missing],
           calls := [externals, { externalPackages := σ.length }] }
       | .error e2 =>
         { result := .error e2,
           store := σ ++ [readArr σ externals.externalPackages ++ missing],
           calls := [externals, { externalPackages := σ.length }] }) := by
  simp only [buildPackageIgnoringMissingDeps, hfirst]
  rw [if_pos hcond]
  rfl

theorem retryController_eq_of_not_cond {env : RetryEnv} {σ : ArrStore}
    {externals : Externals} {errs missing : List String}
    (hfirst : env.build σ externals = .error (.missingDependencyError errs missing))
    (hncond : ¬(missing.length ≤ 6 ∧ missing.all env.isValidNPMName = true)) :
    buildPackageIgnoringMissingDeps env σ externals =
      { result := .error (.missingDependencyError errs missing),
        store := σ, calls := [externals] } := by
  simp only [buildPackageIgnoringMissingDeps, hfirst]
  rw [if_neg hncond]

theorem retryController_calls_cases (env : RetryEnv) (σ : ArrStore) (externals : Externals) :
    (buildPackageIgnoringMissingDeps env σ externals).calls = [externals] ∨
    (buildPackageIgnoringMissingDeps env σ externals).calls =
      [externals, { externalPackages := σ.length }] := by
  rw [buildPackageIgnoringMissingDeps]
  split
  · left; rfl
  · split
    · split
      · simp only [widenExternals, jsConcat]
        split
        · right; rfl
        · right; rfl
      · left; rfl
    · left; rfl

theorem retryController_store_cases (env : RetryEnv) (σ : ArrStore) (externals : Externals) :
    (buildPackageIgnoringMissingDeps env σ externals).store = σ ∨
    ∃ x, (buildPackageIgnoringMissingDeps env σ externals).store = σ ++ [x] := by
  rw [buildPackageIgnoringMissingDeps]
  split
  · left; rfl
  · split
    · split
      · simp only [widenExternals, jsConcat]
        split
        · right; exact ⟨_, rfl⟩
        · right; exact ⟨_, rfl⟩
      · left; rfl
    · left; rfl

/-- Claim C2: a first attempt failing with a `MissingDependencyError` is
retried exactly once when the missing-module count is at most 6 and every
name passes the npm-name predicate: the single retry is invoked with a fresh
externals object whose array is the original `externalPackages` list extended
by the missing names, and a successful retry returns the rebuild result with
`ignoredMissingDependencies` set to those names.  With 7 or more missing
modules, or any invalid name, the error propagates unchanged and no retry
happens (lines 352-398). -/
theorem retry_on_missing_dependency
    (env : RetryEnv) (σ : ArrStore) (externals : Externals)
    (errs missing : List String)
    (hfirst : env.build σ externals = .error (.missingDependencyError errs missing)) :
    ((missing.length ≤ 6 ∧ missing.all env.isValidNPMName = true) →
      (buildPackageIgnoringMissingDeps env σ externals).calls =
        [externals, { externalPackages := σ.length }] ∧
      readArr (buildPackageIgnoringMissingDeps env σ externals).store σ.length =
        readArr σ externals.externalPackages ++ missing ∧
      (∀ r, env.build (σ ++ [readArr σ externals.externalPackages ++ missing])
              { externalPackages := σ.length } = .ok r →
        (buildPackageIgnoringMissingDeps env σ externals).result =
          .ok { r with ignoredMissingDependencies := some missing })) ∧
    ((7 ≤ missing.length ∨ missing.all env.isValidNPMName = false) →
      (buildPackageIgnoringMissingDeps env σ externals).result =
        .error (.missingDependencyError errs missing) ∧
      (buildPackageIgnoringMissingDeps env σ externals).calls = [externals]) := by
  constructor
  · intro hcond
    rw [retryController_eq_of_cond hfirst hcond]
    cases hb : env.build (σ ++ [readArr σ externals.externalPackages ++ missing])
        { externalPackages := σ.length } with
    | ok r =>
      refine ⟨rfl, readArr_concat_self σ _, ?_⟩
      intro r2 hr2
      have hr : r = r2 := Except.ok.inj hr2
      subst hr
      rfl
    | error e2 =>
      refine ⟨rfl, readArr_concat_self σ _, ?_⟩
      intro r2 hr2
      exact absurd hr2 (by simp)
  · intro hbad
    have hncond : ¬(missing.length ≤ 6 ∧ missing.all env.isValidNPMName = true) := by
      rcases hbad with h7 | hval
      · intro ⟨h6, _⟩; omega
      · intro ⟨_, hv⟩; rw [hval] at hv; exact absurd hv (by simp)
    rw [retryController_eq_of_not_cond hfirst hncond]
    exact ⟨rfl, rfl⟩

/-- Witness for C2 (retry branch): first build misses `bar`, the retry sees
externals `["ext0", "bar"]` and succeeds, the result is extended with
`ignoredMissingDependencies = ["bar"]`. -/
theorem retry_on_missing_dependency_witness :
    (buildPackageIgnoringMissingDeps envRetryOk storeW extW).calls =
      [extW, { externalPackages := 1 }] ∧
    readArr (buildPackageIgnoringMissingDeps envRetryOk storeW extW).store 1 =
      ["ext0", "bar"] ∧
    (buildPackageIgnoringMissingDeps envRetryOk storeW extW).result =
      .ok { assets := [], ignoredMissingDependencies := some ["bar"] } := by
  have h := (retry_on_missing_dependency envRetryOk storeW extW
      [errBarNotFound.str] ["bar"] (by decide)).1 (by decide)
  exact ⟨h.1, h.2.1, h.2.2 { assets := [] } (by decide)⟩

/-- Claim C5: `buildPackage` is invoked at most twice per controller call, and
when the single retried build itself throws, that error propagates to the
caller after exactly two invocations — there is never a second retry
(lines 340-399). -/
theorem retry_at_most_once (env : RetryEnv) (σ : ArrStore) (externals : Externals) :
    (buildPackageIgnoringMissingDeps env σ externals).calls.length ≤ 2 ∧
    (∀ errs missing e2,
      env.build σ externals = .error (.missingDependencyError errs missing) →
      (missing.length ≤ 6 ∧ missing.all env.isValidNPMName = true) →
      env.build (σ ++ [readArr σ externals.externalPackages ++ missing])
          { externalPackages := σ.length } = .error e2 →
      (buildPackageIgnoringMissingDeps env σ externals).result = .error e2 ∧
      (buildPackageIgnoringMissingDeps env σ externals).calls.length = 2) := by
  constructor
  · rcases retryController_calls_cases env σ externals with h | h <;> rw [h] <;> simp
  · intro errs missing e2 hfirst hcond hb2
    rw [retryController_eq_of_cond hfirst hcond, hb2]
    exact ⟨rfl, rfl⟩

/-- Witness for C5: a controller run whose retried build also throws: the
second error propagates and exactly 2 build invocations happened. -/
theorem retry_at_most_once_witness :
    (buildPackageIgnoringMissingDeps envRetryFails storeW extW).calls.length ≤ 2 ∧
    (buildPackageIgnoringMissingDeps envRetryFails storeW extW).result =
      .error (.buildError ["second failure"]) ∧
    (buildPackageIgnoringMissingDeps envRetryFails storeW extW).calls.length = 2 := by
  have h := retry_at_most_once envRetryFails storeW extW
  have h2 := h.2 [errBarNotFound.str] ["bar"] (.buildError ["second failure"])
    (by decide) (by decide) (by decide)
  exact ⟨h.1, h2.1, h2.2⟩

/-- Claim C7: the widened externals of a retry is a fresh array reference: the
caller's original externals reference is untouched, and after the controller
returns, the array it references holds exactly its original contents
(`concat` plus object spread on lines 359-363; nothing mutates in place). -/
theorem retry_externals_not_mutated (env : RetryEnv) (σ : ArrStore) (externals : Externals)
    (href : externals.externalPackages < σ.length) :
    readArr (buildPackageIgnoringMissingDeps env σ externals).store externals.externalPackages
      = readArr σ externals.externalPackages ∧
    (∀ c ∈ (buildPackageIgnoringMissingDeps env σ externals).calls.drop 1,
      c.externalPackages ≠ externals.externalPackages) := by
  constructor
  · rcases retryController_store_cases env σ externals with h | ⟨x, h⟩
    · rw [h]
    · rw [h]
      exact readArr_append_of_lt σ x href
  · intro c hc
    rcases retryController_calls_cases env σ externals with h | h
    · rw [h] at hc
      simp at hc
    · rw [h] at hc
      simp only [List.drop_succ_cons, List.drop_zero, List.mem_singleton] at hc
      subst hc
      simp only []
      omega

/-- Witness for C7: after the retrying run, the original externals array still
holds `["ext0"]` and the retry call used a different reference. -/
theorem retry_externals_not_mutated_witness :
    readArr (buildPackageIgnoringMissingDeps envRetryOk storeW extW).store
        extW.externalPackages = readArr storeW extW.externalPackages ∧
    (∀ c ∈ (buildPackageIgnoringMissingDeps envRetryOk storeW extW).calls.drop 1,
      c.externalPackages ≠ extW.externalPackages) :=
  retry_externals_not_mutated envRetryOk storeW extW (by decide)

/-! ## EntryPointSynthesizer claims -/

theorem prefixIndices_mem {pat cs : List Char} {i : Nat}
    (hle : i ≤ cs.length) (hpre : pat.isPrefixOf (cs.drop i) = true) :
    i ∈ prefixIndices pat cs := by
  rw [prefixIndices]
  exact List.mem_filter.mpr ⟨List.mem_range.mpr (by omega), hpre⟩

theorem containsSubList_of_append (A P B : List Char) :
    containsSubList (A ++ P ++ B) P = true := by
  rw [containsSubList]
  apply List.any_eq_true.mpr
  refine ⟨A.length, ?_, rfl⟩
  apply prefixIndices_mem
  · simp only [List.append_assoc, List.length_append]
    omega
  · rw [List.append_assoc, List.drop_left]
    exact List.isPrefixOf_iff_prefix.mpr (List.prefix_append P B)

theorem containsSub_of_parts {s p : String} (a b : String) (h : s = a ++ p ++ b) :
    containsSub s p = true := by
  rw [containsSub, h, toList_append, toList_append]
  exact containsSubList_of_append _ _ _

/-- Claim C6 (counterexample): with `customImports` PRESENT but EMPTY
(`some []`, which is truthy in JS) and commonjs syntax, the generated source
is the empty destructuring, not the default-import form the claim prescribes
for "absent or empty". -/
theorem createEntryPoint_empty_imports_counterexample :
    importStatementOf "foo" { esm := false, customImports := some [], entryFilename := none } =
      "\n        const \x7b  \x7d = require('foo'); \n        console.log()\n        " ∧
    importStatementOf "foo" { esm := false, customImports := some [], entryFilename := none } ≠
      "const p = require('foo'); console.log(p)" := by
  refine ⟨by decide, by decide⟩

/-- Claim C6 (amended): the branch condition of lines 65-85 is PRESENCE of
`customImports`, not non-emptiness.  When `customImports` is absent the
generated source imports/requires the default/namespace export and references
it; whenever `customImports` is provided (including the empty list, which
yields an empty destructuring pattern), the generated source destructures
exactly the given comma-joined binding list from the package and passes the
same list to `console.log`. -/
theorem createEntryPoint_branches_amended (packageName : String) (esm : Bool)
    (ci : Option (List String)) (ef : Option String) :
    (ci = none →
      importStatementOf packageName { esm := esm, customImports := ci, entryFilename := ef } =
        (if esm then "import p from '" ++ packageName ++ "'; console.log(p)"
         else "const p = require('" ++ packageName ++ "'); console.log(p)")) ∧
    (∀ imports, ci = some imports →
      containsSub
        (importStatementOf packageName { esm := esm, customImports := ci, entryFilename := ef })
        ("\x7b " ++ String.intercalate ", " imports ++ " \x7d") = true ∧
      containsSub
        (importStatementOf packageName { esm := esm, customImports := ci, entryFilename := ef })
        ("console.log(" ++ String.intercalate ", " imports ++ ")") = true ∧
      containsSub
        (importStatementOf packageName { esm := esm, customImports := ci, entryFilename := ef })
        (if esm then "from '" ++ packageName ++ "'"
         else "require('" ++ packageName ++ "')") = true) := by
  constructor
  · intro hci
    subst hci
    cases esm <;> rfl
  · intro imports hci
    subst hci
    have e1 : ("\n          import \x7b " : String) = "\n          import " ++ "\x7b " := rfl
    have e2 : (" \x7d from '" : String) = " \x7d" ++ " from '" := rfl
    have e3 : ("'; \n          console.log(" : String) = "'; \n          " ++ "console.log(" := rfl
    have e4 : (")\n     " : String) = ")" ++ "\n     " := rfl
    have e5 : (" \x7d from '" : String) = " \x7d " ++ "from '" := rfl
    have e6 : ("'; \n          console.log(" : String) = "'" ++ "; \n          console.log(" := rfl
    have f1 : ("\n        const \x7b " : String) = "\n        const " ++ "\x7b " := rfl
    have f2 : (" \x7d = require('" : String) = " \x7d" ++ " = require('" := rfl
    have f3 : ("'); \n        console.log(" : String) = "'); \n        " ++ "console.log(" := rfl
    have f4 : (")\n        " : String) = ")" ++ "\n        " := rfl
    have f5 : (" \x7d = require('" : String) = " \x7d = " ++ "require('" := rfl
    have f6 : ("'); \n        console.log(" : String) = "')" ++ "; \n        console.log(" := rfl
    cases esm
    · refine ⟨?_, ?_, ?_⟩
      · refine containsSub_of_parts "\n        const "
          (" = require('" ++ packageName ++ "'); \n        console.log(" ++
            String.intercalate ", " imports ++ ")\n        ") ?_
        simp only [importStatementOf]
        rw [f1, f2]
        simp only [String.append_assoc]
      · refine containsSub_of_parts
          ("\n        const \x7b " ++ String.intercalate ", " imports ++
            " \x7d = require('" ++ packageName ++ "'); \n        ")
          ("\n        ") ?_
        simp only [importStatementOf]
        rw [f3, f4]
        simp only [String.append_assoc]
      · refine containsSub_of_parts
          ("\n        const \x7b " ++ String.intercalate ", " imports ++ " \x7d = ")
          ("; \n        console.log(" ++ String.intercalate ", " imports ++ ")\n        ") ?_
        simp only [importStatementOf]
        rw [f5, f6]
        simp only [String.append_assoc]
        simp [String.append_assoc]
    · refine ⟨?_, ?_, ?_⟩
      · refine containsSub_of_parts "\n          import "
          (" from '" ++ packageName ++ "'; \n          console.log(" ++
            String.intercalate ", " imports ++ ")\n     ") ?_
        simp only [importStatementOf]
        rw [e1, e2]
        simp only [String.append_assoc]
      · refine containsSub_of_parts
          ("\n          import \x7b " ++ String.intercalate ", " imports ++
            " \x7d from '" ++ packageName ++ "'; \n          ")
          ("\n     ") ?_
        simp only [importStatementOf]
        rw [e3, e4]
        simp only [String.append_assoc]
      · refine containsSub_of_parts
          ("\n          import \x7b " ++ String.intercalate ", " imports ++ " \x7d ")
          ("; \n          console.log(" ++ String.intercalate ", " imports ++ ")\n     ") ?_
        simp only [importStatementOf]
        rw [e5, e6]
        simp only [String.append_assoc]
        simp [String.append_assoc]

/-- Witness for the amended C6 theorem: absent `customImports` produces the
commonjs default-import statement; provided `["a", "b"]` produces a statement
destructuring exactly `a, b`. -/
theorem createEntryPoint_branches_amended_witness :
    importStatementOf "foo" { esm := false, customImports := none, entryFilename := none } =
      "const p = require('foo'); console.log(p)" ∧
    containsSub
      (importStatementOf "foo" { esm := true, customImports := some ["a", "b"], entryFilename := none })
      "\x7b a, b \x7d" = true :=
  ⟨(createEntryPoint_branches_amended "foo" false none none).1 rfl,
   ((createEntryPoint_branches_amended "foo" true (some ["a", "b"]) none).2 ["a", "b"] rfl).1⟩

end PBS
